import Mathlib

/-!
Verification of the `religious_times` prayer-times calculator
(`pray_times.py`) against its specification.

Modelling conventions, used throughout:

* Python floats are modelled as rationals (`ℚ`).  The float trigonometry
  library (`math.sin`, `math.cos`, …, in degree-based wrappers) is modelled
  as an abstract oracle `Trig` of rational functions; nothing in the claims
  depends on the actual values of these functions.
* The float `nan` (produced by `sun_angle_time` on a domain error and
  propagated through arithmetic) is modelled as `none : Option ℚ`;
  a defined time `t` is `some t`.  Arithmetic on possibly-`nan` values is
  lifted accordingly (`nadd`, `oadd`, `time_diff`, …), and a comparison
  with a `nan` operand is `false`, as in IEEE/Python.
* A Python exception escaping a function (`ValueError` from `float(...)`
  inside `eval`) is modelled by an `Option` result on the raising function
  and by `Option`-bind threading in its callers.
* Python dicts are modelled as insertion-ordered association lists;
  `dictSet` mutates the first occurrence of a key in place and appends a
  missing key at the end, exactly like a dict item assignment.
-/

namespace RTimes

/-- The nine prayer-time names (keys of the time table). -/
inductive TName
  | imsak | fajr | sunrise | dhuhr | asr | sunset | maghrib | isha | midnight
  deriving DecidableEq, Repr

/-- A settings/parameter value: a Python number or a string
(e.g. `18`, `17.7`, `"10 min"`, `"Standard"`, `"Jafari"`). -/
inductive PVal
  | num (q : ℚ)
  | str (s : String)
  deriving DecidableEq, Repr

/-- Python dict item assignment `d[k] = v` on an association list:
replaces the first binding of `k` in place, appends if absent. -/
def dictSet {κ α : Type} [DecidableEq κ] : List (κ × α) → κ → α → List (κ × α)
  | [], k, v => [(k, v)]
  | (k', v') :: rest, k, v =>
      if k' = k then (k, v) :: rest else (k', v') :: dictSet rest k v

/-- Python dict lookup `d[k]` (first binding). -/
def dictFind {κ α : Type} [DecidableEq κ] : List (κ × α) → κ → Option α
  | [], _ => none
  | (k', v') :: rest, k => if k' = k then some v' else dictFind rest k

/-- The keys of an association-list dict, in order. -/
def dictKeys {κ α : Type} (l : List (κ × α)) : List κ := l.map Prod.fst

/-- `d.update(params)`: fold of item assignments, as `dict.update`. -/
def dictUpdate {κ α : Type} [DecidableEq κ]
    (l : List (κ × α)) (ps : List (κ × α)) : List (κ × α) :=
  ps.foldl (fun acc p => dictSet acc p.1 p.2) l

/-- A time table: prayer name → fractional hour, `none` modelling `nan`. -/
abbrev TTable : Type := List (TName × Option ℚ)

/-- `times[k]` on a time table (all keys are always present when read;
a missing key, a `KeyError` in Python, is modelled as `nan`). -/
def tget (l : TTable) (k : TName) : Option ℚ := (dictFind l k).getD none

/-- `times[k] = v` on a time table. -/
def tset (l : TTable) (k : TName) (v : Option ℚ) : TTable := dictSet l k v

/-- `PrayTimes.INVALID_TIME`, the invalid-time marker. -/
def INVALID_TIME : String := "-----"

/-! ### `eval`: string-to-number conversion (`PrayTimes.eval`) -/

/-- The character class `[0-9.+-]` of `PrayTimes.eval`'s regex. -/
def evalChar (c : Char) : Bool := c.isDigit || c = '.' || c = '+' || c = '-'

/-- `re.split("[^0-9.+-]", st, 1)[0]`: the maximal leading run of
characters from the class `[0-9.+-]`. -/
def evalPrefix (s : String) : String := ⟨s.data.takeWhile evalChar⟩

/-- Numeric value of a digit list (most significant first). -/
def digitsVal (cs : List Char) : ℚ :=
  cs.foldl (fun acc c => 10 * acc + (c.toNat - '0'.toNat : ℕ)) 0

/-- Python's `float(s)` on a string drawn from the class `[0-9.+-]*`:
an optional single sign, then either `digits`, `digits.digits?` or
`.digits`; anything else (`""`, `"."`, `"+"`, `"1-2"`, `"1.2.3"`, …)
raises `ValueError`, modelled as `none`. -/
def pyFloat (s : String) : Option ℚ :=
  let core := fun (cs : List Char) (sign : ℚ) =>
    let intPart := cs.takeWhile Char.isDigit
    let rest := cs.dropWhile Char.isDigit
    match rest with
    | [] => if intPart.isEmpty then none
            else some (sign * digitsVal intPart)
    | '.' :: frac =>
        if frac.all Char.isDigit && !(intPart.isEmpty && frac.isEmpty) then
          some (sign * (digitsVal intPart + digitsVal frac / 10 ^ frac.length))
        else none
    | _ => none
  match s.toList with
  | '+' :: cs => core cs 1
  | '-' :: cs => core cs (-1)
  | cs => core cs 1

/-- `PrayTimes.eval(st)`: `str(st)` (a Python number prints back to a
literal denoting the same value), take the leading `[0-9.+-]` run, return
`0` if it is empty, else `float` of it — which can raise `ValueError`
(result `none`). -/
def eval : PVal → Option ℚ
  | .num q => some q
  | .str s =>
      let val := evalPrefix s
      if val = "" then some 0 else pyFloat val

/-- `'min' in arg` for a string as in `PrayTimes.is_min` (substring test). -/
def hasMin : List Char → Bool
  | [] => false
  | 'm' :: 'i' :: 'n' :: _ => true
  | _ :: rest => hasMin rest

/-- `PrayTimes.is_min(arg)`: `arg` is a string containing `"min"`. -/
def is_min : PVal → Bool
  | .str s => hasMin s.toList
  | .num _ => false

/-! ### Class-level state: methods, settings, offsets
(`PrayTimes.METHODS`, `SETTINGS`, `offset` are class attributes, mutated
in place through any instance, hence shared by all instances; each
instance only owns its `CALC_METHOD` string, set by plain attribute
assignment in `__init__`/`set_method`.) -/

/-- `PrayTimes.TIME_NAMES` keys, in declaration order. -/
def TIME_NAMES : List String :=
  ["imsak", "fajr", "sunrise", "dhuhr", "asr", "sunset", "maghrib", "isha",
   "midnight"]

/-- `PrayTimes.DEFAULT_PARAMS`. -/
def DEFAULT_PARAMS : List (String × PVal) :=
  [("maghrib", .str "0 min"), ("midnight", .str "Standard")]

/-- `PrayTimes.METHODS`: id → parameter dict (the display names are
irrelevant to every claim and omitted). -/
def METHODS0 : List (String × List (String × PVal)) :=
  [("MWL", [("fajr", .num 18), ("isha", .num 17)]),
   ("ISNA", [("fajr", .num 15), ("isha", .num 15)]),
   ("Egypt", [("fajr", .num 19.5), ("isha", .num 17.5)]),
   ("Makkah", [("fajr", .num 18.5), ("isha", .str "90 min")]),
   ("Karachi", [("fajr", .num 18), ("isha", .num 18)]),
   ("Tehran", [("fajr", .num 17.7), ("isha", .num 14), ("maghrib", .num 4.5),
               ("midnight", .str "Jafari")]),
   ("Jafari", [("fajr", .num 16), ("isha", .num 14), ("maghrib", .num 4),
               ("midnight", .str "Jafari")])]

/-- `PrayTimes.SETTINGS`, the initial class-level settings dict. -/
def SETTINGS0 : List (String × PVal) :=
  [("imsak", .str "10 min"), ("dhuhr", .str "0 min"), ("asr", .str "Standard"),
   ("highLats", .str "NightMiddle")]

/-- The shared (class-level) mutable state of `PrayTimes`. -/
structure ClassState where
  METHODS : List (String × List (String × PVal))
  SETTINGS : List (String × PVal)
  offset : List (String × ℚ)
  deriving DecidableEq, Repr

/-- Per-instance state: only the `CALC_METHOD` attribute, which
`__init__` and `set_method` assign on `self` (shadowing the class). -/
structure PTInstance where
  CALC_METHOD : String
  deriving DecidableEq, Repr

/-- The class-level state before any instance is constructed. -/
def initialClassState : ClassState :=
  { METHODS := METHODS0, SETTINGS := SETTINGS0, offset := [] }

/-- The default-completion loop of `__init__`: for each method, set each
`DEFAULT_PARAMS` entry that the method's params do not already contain
(no catalog value is `None`, so the `is None` disjunct never fires). -/
def fillDefaults (ps : List (String × PVal)) : List (String × PVal) :=
  DEFAULT_PARAMS.foldl
    (fun acc d => if (dictFind acc d.1).isSome then acc else dictSet acc d.1 d.2)
    ps

/-- `PrayTimes.__init__(calc_method)`: complete method defaults (mutating
the class-level `METHODS`), fall back to `"MWL"` for an unknown id, merge
the chosen method's params into the class-level `SETTINGS`, and zero the
class-level `offset` for every time name. -/
def PrayTimes_init (cs : ClassState) (calc_method : String) :
    ClassState × PTInstance :=
  let methods := cs.METHODS.map (fun m => (m.1, fillDefaults m.2))
  let cm := if (dictFind methods calc_method).isSome then calc_method else "MWL"
  let params := (dictFind methods cm).getD []
  let settings := dictUpdate cs.SETTINGS params
  let offset := TIME_NAMES.foldl (fun acc n => dictSet acc n (0 : ℚ)) cs.offset
  ({ METHODS := methods, SETTINGS := settings, offset := offset },
   { CALC_METHOD := cm })

/-- `PrayTimes.adjust(params)`: `SETTINGS.update(params)` on the shared
class-level dict. -/
def adjust (cs : ClassState) (params : List (String × PVal)) : ClassState :=
  { cs with SETTINGS := dictUpdate cs.SETTINGS params }

/-- `PrayTimes.set_method(method)`: for a known id, `adjust` with its
params and assign `CALC_METHOD` on the instance; for an unknown id, do
nothing at all. -/
def set_method (cs : ClassState) (inst : PTInstance) (method : String) :
    ClassState × PTInstance :=
  match dictFind cs.METHODS method with
  | some params => (adjust cs params, { CALC_METHOD := method })
  | none => (cs, inst)

/-- `PrayTimes.get_settings()`: returns the shared class-level `SETTINGS`
dict, whichever instance it is called on. -/
def get_settings (cs : ClassState) (_inst : PTInstance) :
    List (String × PVal) :=
  cs.SETTINGS

/-- `PrayTimes.get_offsets()`: returns the shared class-level `offset`
dict, whichever instance it is called on. -/
def get_offsets (cs : ClassState) (_inst : PTInstance) : List (String × ℚ) :=
  cs.offset

/-- `PrayTimes.get_method()`. -/
def get_method (_cs : ClassState) (inst : PTInstance) : String :=
  inst.CALC_METHOD

/-- Modelled from the spec: the `tune(offsets)` operation ("overwrites
named entries in Offsets (minutes)") is declared in the module's interface
documentation but its body is not present in `src/`; following the spec it
overwrites entries of the shared class-level `offset` dict. -/
def tune (cs : ClassState) (offsets : List (String × ℚ)) : ClassState :=
  { cs with offset := dictUpdate cs.offset offsets }

/-! ### Arithmetic with the `nan` sentinel -/

/-- `t + c` for a possibly-`nan` time and a defined float. -/
def nadd (t : Option ℚ) (c : ℚ) : Option ℚ := t.map (· + c)

/-- `t - c` for a possibly-`nan` time and a defined float. -/
def nsub (t : Option ℚ) (c : ℚ) : Option ℚ := t.map (· - c)

/-- `a + b` for two possibly-`nan` values. -/
def oadd : Option ℚ → Option ℚ → Option ℚ
  | some a, some b => some (a + b)
  | _, _ => none

/-- `a > b` in Python: `false` whenever an operand is `nan`. -/
def ogt : Option ℚ → Option ℚ → Bool
  | some a, some b => decide (b < a)
  | _, _ => false

/-- `PrayTimes.fix(a, mode)` on a defined float (the `isnan` early return
of the source corresponds to the `none` case of the `Option` lifting). -/
def fix (a mode : ℚ) : ℚ :=
  let b := a - mode * ⌊a / mode⌋
  if b < 0 then b + mode else b

/-- `PrayTimes.fix_angle`. -/
def fix_angle (a : ℚ) : ℚ := fix a 360

/-- `PrayTimes.fix_hour`. -/
def fix_hour (a : ℚ) : ℚ := fix a 24

/-- `PrayTimes.time_diff(time1, time2) = fix_hour(time2 - time1)`,
`nan`-propagating. -/
def time_diff : Option ℚ → Option ℚ → Option ℚ
  | some t1, some t2 => some (fix_hour (t2 - t1))
  | _, _ => none

/-! ### The trigonometric oracle and the calculator state -/

/-- The degree-based float trigonometry of the source
(`PrayTimes.sin(d) = math.sin(math.radians(d))`, …,
`arccot(x) = math.degrees(math.atan(1.0/x))`,
and `math.sqrt`), as an abstract oracle of rational functions. -/
structure Trig where
  sin : ℚ → ℚ
  cos : ℚ → ℚ
  tan : ℚ → ℚ
  arcsin : ℚ → ℚ
  arccos : ℚ → ℚ
  arctan2 : ℚ → ℚ → ℚ
  arccot : ℚ → ℚ
  sqrt : ℚ → ℚ

/-- The per-call computation state that `get_times` installs on the
instance before calling `compute_times`: coordinates, timezone, julian
date, plus the settings, offsets and output format in force. -/
structure PTState where
  jDate : ℚ
  lat : ℚ
  lng : ℚ
  elv : ℚ
  timeZone : ℚ
  settings : List (String × PVal)
  offset : TName → ℚ
  timeFormat : String

/-- `self.SETTINGS[k]` (every key read by the code is present after
`__init__`; a missing key, a `KeyError` in Python, yields a dummy). -/
def sget (st : PTState) (k : String) : PVal :=
  (dictFind st.settings k).getD (.str "")

/-! ### Solar position and angle solving -/

/-- `PrayTimes.sun_position(jd)`: declination and equation of time from
the low-order solar approximation.  (The unused intermediate `R` of the
source is dropped.) -/
def sun_position (T : Trig) (jd : ℚ) : ℚ × ℚ :=
  let D := jd - 2451545.0
  let g := fix_angle (357.529 + 0.98560028 * D)
  let q := fix_angle (280.459 + 0.98564736 * D)
  let L := fix_angle (q + 1.915 * T.sin g + 0.020 * T.sin (2 * g))
  let e := 23.439 - 0.00000036 * D
  let RA := T.arctan2 (T.cos e * T.sin L) (T.cos L) / 15
  let eqt := q / 15 - fix_hour RA
  let decl := T.arcsin (T.sin e * T.sin L)
  (decl, eqt)

/-- `PrayTimes.midday(time)` on a defined estimate. -/
def midday (T : Trig) (st : PTState) (time : ℚ) : ℚ :=
  fix_hour (12 - (sun_position T (st.jDate + time)).2)

/-- The inverse-cosine argument of `sun_angle_time`, computed from the
angle, the solar declination and the observer latitude. -/
def acosArg (T : Trig) (angle decl lat : ℚ) : ℚ :=
  (-(T.sin angle) - T.sin decl * T.sin lat) / (T.cos decl * T.cos lat)

/-- `PrayTimes.sun_angle_time(angle, time, direction)`.  `ccw = true`
models `direction == "ccw"`.  When the inverse-cosine argument falls
outside `[-1, 1]`, `math.acos` raises `ValueError`, the `except` clause
returns `nan` (`none`).  A `nan` estimate propagates to a `nan` result
(every float step, `acos` included, maps `nan` to `nan`). -/
def sun_angle_time (T : Trig) (st : PTState) (angle : ℚ) (time : Option ℚ)
    (ccw : Bool) : Option ℚ :=
  match time with
  | none => none
  | some tm =>
      let decl := (sun_position T (st.jDate + tm)).1
      let noon := midday T st tm
      let arg := acosArg T angle decl st.lat
      if arg < -1 ∨ 1 < arg then none
      else
        let t := 1 / 15 * T.arccos arg
        some (noon + (if ccw then -t else t))

/-- `PrayTimes.asr_time(factor, time)` on a possibly-`nan` estimate. -/
def asr_time (T : Trig) (st : PTState) (factor : ℚ) (time : Option ℚ) :
    Option ℚ :=
  match time with
  | none => none
  | some tm =>
      let decl := (sun_position T (st.jDate + tm)).1
      let angle := -(T.arccot (factor + T.tan |st.lat - decl|))
      sun_angle_time T st angle (some tm) false

/-- `PrayTimes.asr_factor(asr_param)`: named shadow factors, else `eval`
(which can raise). -/
def asr_factor (asr_param : PVal) : Option ℚ :=
  if asr_param = .str "Standard" then some 1
  else if asr_param = .str "Hanafi" then some 2
  else eval asr_param

/-- `PrayTimes.rise_set_angle(elevation)`. -/
def rise_set_angle (T : Trig) (elv : ℚ) : ℚ :=
  0.833 + 0.0347 * T.sqrt elv

/-- `PrayTimes.julian(year, month, day)`: Gregorian date to Julian day. -/
def julian (year month day : ℤ) : ℚ :=
  let yr := if month ≤ 2 then year - 1 else year
  let mo := if month ≤ 2 then month + 12 else month
  let A : ℤ := ⌊(yr : ℚ) / 100⌋
  let B : ℤ := 2 - A + ⌊(A : ℚ) / 4⌋
  ((⌊(365.25 : ℚ) * ((yr : ℚ) + 4716)⌋ : ℚ) +
      (⌊(30.6001 : ℚ) * ((mo : ℚ) + 1)⌋ : ℚ) + (day : ℚ) + (B : ℚ)) - 1524.5

/-! ### The prayer-times pipeline -/

/-- The seed table of `compute_times` (eight entries, no midnight). -/
def seedTimes : TTable :=
  [(.imsak, some 5), (.fajr, some 5), (.sunrise, some 6), (.dhuhr, some 12),
   (.asr, some 13), (.sunset, some 18), (.maghrib, some 18), (.isha, some 18)]

/-- `PrayTimes.day_portion(times)`: divide every entry by 24. -/
def day_portion (times : TTable) : TTable :=
  times.map (fun p => (p.1, p.2.map (· / 24)))

/-- `PrayTimes.compute_prayer_times(times)`: one refinement pass.  The
`eval`/`asr_factor` calls can raise (`none`); they are evaluated in source
order. -/
def compute_prayer_times (T : Trig) (st : PTState) (times0 : TTable) :
    Option TTable := do
  let times := day_portion times0
  let aImsak ← eval (sget st "imsak")
  let imsak := sun_angle_time T st aImsak (tget times .imsak) true
  let aFajr ← eval (sget st "fajr")
  let fajr := sun_angle_time T st aFajr (tget times .fajr) true
  let sunrise := sun_angle_time T st (rise_set_angle T st.elv)
    (tget times .sunrise) true
  let dhuhr := (tget times .dhuhr).map (midday T st)
  let fAsr ← asr_factor (sget st "asr")
  let asr := asr_time T st fAsr (tget times .asr)
  let sunset := sun_angle_time T st (rise_set_angle T st.elv)
    (tget times .sunset) false
  let aMaghrib ← eval (sget st "maghrib")
  let maghrib := sun_angle_time T st aMaghrib (tget times .maghrib) false
  let aIsha ← eval (sget st "isha")
  let isha := sun_angle_time T st aIsha (tget times .isha) false
  pure [(.imsak, imsak), (.fajr, fajr), (.sunrise, sunrise), (.dhuhr, dhuhr),
        (.asr, asr), (.sunset, sunset), (.maghrib, maghrib), (.isha, isha)]

/-- `PrayTimes.night_portion(angle, night)`: the allowed portion of the
night per the `highLats` policy, times the night length. -/
def night_portion (st : PTState) (angle : ℚ) (night : Option ℚ) : Option ℚ :=
  let method := sget st "highLats"
  let portion : ℚ := 1 / 2
  let portion := if method = .str "AngleBased" then 1 / 60 * angle else portion
  let portion := if method = .str "OneSeventh" then 1 / 7 else portion
  night.map (fun n => portion * n)

/-- `PrayTimes.adjust_high_lat_time(time, base, angle, night, direction)`:
clamp `time` to `base ± portion` when it is `nan` or farther than
`portion` from `base` (a comparison with a `nan` operand is `false`). -/
def adjust_high_lat_time (st : PTState) (time base : Option ℚ) (angle : ℚ)
    (night : Option ℚ) (ccw : Bool) : Option ℚ :=
  let portion := night_portion st angle night
  let diff := if ccw then time_diff time base else time_diff base time
  if time.isNone || ogt diff portion then
    oadd base (if ccw then portion.map (fun x => -x) else portion)
  else time

/-- `PrayTimes.adjust_high_lats(times)`: bound Imsak/Fajr against sunrise
(backward) and Isha/Maghrib against sunset (forward), with
`night = time_diff(sunset, sunrise)` computed first. -/
def adjust_high_lats (st : PTState) (times : TTable) : Option TTable := do
  let night := time_diff (tget times .sunset) (tget times .sunrise)
  let aI ← eval (sget st "imsak")
  let t1 := tset times .imsak
    (adjust_high_lat_time st (tget times .imsak) (tget times .sunrise) aI
      night true)
  let aF ← eval (sget st "fajr")
  let t2 := tset t1 .fajr
    (adjust_high_lat_time st (tget t1 .fajr) (tget t1 .sunrise) aF night true)
  let aS ← eval (sget st "isha")
  let t3 := tset t2 .isha
    (adjust_high_lat_time st (tget t2 .isha) (tget t2 .sunset) aS night false)
  let aM ← eval (sget st "maghrib")
  let t4 := tset t3 .maghrib
    (adjust_high_lat_time st (tget t3 .maghrib) (tget t3 .sunset) aM night
      false)
  pure t4

/-- The timezone/longitude shift of `adjust_times`:
`times[t] += time_zone - lng/15` for every entry. -/
def tz_shift (st : PTState) (times : TTable) : TTable :=
  times.map (fun p => (p.1, nadd p.2 (st.timeZone - st.lng / 15)))

/-- `PrayTimes.adjust_times(times)`: timezone/longitude shift, optional
high-latitude adjustment, minute-offset substitutions (Imsak from Fajr,
Maghrib from Sunset, Isha from the just-updated Maghrib), then the
unconditional Dhuhr minute shift. -/
def adjust_times (st : PTState) (times0 : TTable) :
    Option TTable :=
  let times := tz_shift st times0
  (if sget st "highLats" ≠ .str "None" then adjust_high_lats st times
   else some times).bind fun times =>
  (if is_min (sget st "imsak") then
     (eval (sget st "imsak")).map
       (fun n => tset times .imsak (nsub (tget times .fajr) (n / 60)))
   else some times).bind fun times =>
  (if is_min (sget st "maghrib") then
     (eval (sget st "maghrib")).map
       (fun n => tset times .maghrib (nsub (tget times .sunset) (n / 60)))
   else some times).bind fun times =>
  (if is_min (sget st "isha") then
     (eval (sget st "isha")).map
       (fun n => tset times .isha (nsub (tget times .maghrib) (n / 60)))
   else some times).bind fun times =>
  (eval (sget st "dhuhr")).map
    (fun nD => tset times .dhuhr (nadd (tget times .dhuhr) (nD / 60)))

/-- The midnight step of `compute_times`: Sunset plus half the wrap-around
distance to Fajr (`"Jafari"`) or to Sunrise (otherwise). -/
def add_midnight (st : PTState) (times : TTable) : TTable :=
  if sget st "midnight" = .str "Jafari" then
    tset times .midnight
      (oadd (tget times .sunset)
        ((time_diff (tget times .sunset) (tget times .fajr)).map (· / 2)))
  else
    tset times .midnight
      (oadd (tget times .sunset)
        ((time_diff (tget times .sunset) (tget times .sunrise)).map (· / 2)))

/-- `PrayTimes.tune_times(times)`: add `offset[name]/60` to every entry. -/
def tune_times (st : PTState) (times : TTable) : TTable :=
  times.map (fun p => (p.1, nadd p.2 (st.offset p.1 / 60)))

/-! ### Formatting -/

/-- The result of `get_formatted_time`: a string, or the raw float for the
`"Float"` format. -/
inductive FmtVal
  | s (v : String)
  | f (v : ℚ)
  deriving DecidableEq, Repr

/-- `"%02d" % n` for the (always nonnegative here) hour/minute fields. -/
def pad2 (n : ℤ) : String :=
  if n < 10 then "0" ++ toString n else toString n

/-- `PrayTimes.get_formatted_time(time, format)` (the `suffixes` parameter
always defaults to `TIME_SUFFIXES = ["am", "pm"]` in this program):
`nan` renders as the invalid marker, `"Float"` passes the value through,
otherwise add half a minute, wrap, truncate into hours and minutes and
render `"24h"` as `HH:MM`, and any other format as `H:MM` on a 12-hour
clock, with an am/pm suffix exactly for `"12h"`. -/
def get_formatted_time (time : Option ℚ) (format : String) : FmtVal :=
  match time with
  | none => .s INVALID_TIME
  | some t0 =>
      if format = "Float" then .f t0
      else
        let t := fix_hour (t0 + 0.5 / 60)
        let hours : ℤ := ⌊t⌋
        let minutes : ℤ := ⌊(t - (hours : ℚ)) * 60⌋
        let suffix := if format = "12h" then
                        (if hours < 12 then "am" else "pm")
                      else ""
        let ft := if format = "24h" then pad2 hours ++ ":" ++ pad2 minutes
                  else toString ((hours + 11) % 12 + 1) ++ ":" ++ pad2 minutes
        .s (ft ++ suffix)

/-- A formatted time table. -/
abbrev FTable : Type := List (TName × FmtVal)

/-- `PrayTimes.modify_formats(times)`. -/
def modify_formats (st : PTState) (times : TTable) : FTable :=
  times.map (fun p => (p.1, get_formatted_time p.2 st.timeFormat))

/-- `PrayTimes.numIterations`. -/
def numIterations : ℕ := 1

/-- The `for i in range(numIterations)` loop of `compute_times`. -/
def iterateCPT (T : Trig) (st : PTState) : ℕ → TTable → Option TTable
  | 0, t => some t
  | n + 1, t => compute_prayer_times T st t >>= iterateCPT T st n

/-- `PrayTimes.compute_times()`: seed, refine, adjust, add midnight, tune,
format. -/
def compute_times (T : Trig) (st : PTState) : Option FTable := do
  let times ← iterateCPT T st numIterations seedTimes
  let times ← adjust_times st times
  let times := add_midnight st times
  let times := tune_times st times
  pure (modify_formats st times)

/-- `PrayTimes.get_times(date, coords, timezone, dst, format)`: install
the coordinates, the DST-folded timezone and the longitude-corrected
julian date, then run `compute_times`. -/
def get_times (T : Trig) (settings : List (String × PVal))
    (offset : TName → ℚ) (date : ℤ × ℤ × ℤ) (coords : ℚ × ℚ × ℚ)
    (timezone : ℚ) (dst : Bool) (fmt : String) : Option FTable :=
  let st : PTState :=
    { lat := coords.1, lng := coords.2.1, elv := coords.2.2,
      timeZone := timezone + (if dst then 1 else 0),
      jDate := julian date.1 date.2.1 date.2.2 - coords.2.1 / (15 * 24),
      settings := settings, offset := offset, timeFormat := fmt }
  compute_times T st

/-! ### Helper lemmas -/

/-- A trivial trig oracle, used to instantiate witnesses. -/
def trigZero : Trig :=
  { sin := fun _ => 0, cos := fun _ => 0, tan := fun _ => 0,
    arcsin := fun _ => 0, arccos := fun _ => 0, arctan2 := fun _ _ => 0,
    arccot := fun _ => 0, sqrt := fun _ => 0 }

theorem dictFind_map_val_none {κ α β : Type} [DecidableEq κ]
    (f : α → β) (l : List (κ × α)) (k : κ) (h : dictFind l k = none) :
    dictFind (l.map (fun p => (p.1, f p.2))) k = none := by
  induction l with
  | nil => simp [dictFind]
  | cons p rest ih =>
      simp only [dictFind, List.map] at h ⊢
      split at h
      · exact absurd h (by simp)
      · next hk => simpa [hk] using ih h

/-- An oracle whose degree-sine is constantly `1` and degree-cosine
constantly `1`, giving an inverse-cosine argument of `-2`; used to witness
the unreachable-angle case. -/
def trigOne : Trig :=
  { sin := fun _ => 1, cos := fun _ => 1, tan := fun _ => 0,
    arcsin := fun _ => 0, arccos := fun _ => 0, arctan2 := fun _ _ => 0,
    arccot := fun _ => 0, sqrt := fun _ => 0 }

/-- A concrete calculator state for witnesses. -/
def stZero : PTState :=
  { jDate := 0, lat := 0, lng := 0, elv := 0, timeZone := 0,
    settings := SETTINGS0, offset := fun _ => 0, timeFormat := "24h" }

/-! ### Claim C1 — `nan` on unreachable angles, and its propagation -/

/-- C1: whenever the inverse-cosine argument computed by `sun_angle_time`
from the angle, the solar declination and the observer latitude falls
outside `[-1, 1]`, `sun_angle_time` returns the undefined value (`nan`,
modelled `none`) instead of raising; `nan` survives the arithmetic of the
pipeline (timezone shift, tuning, midnight arithmetic, `time_diff`),
is replaced by `base ± portion` by the high-latitude adjustment, and is
rendered as the invalid-time marker `"-----"` by the formatter. -/
theorem c1_unreachable_angle_nan (T : Trig) (st : PTState)
    (angle tm : ℚ) (ccw : Bool)
    (h : acosArg T angle ((sun_position T (st.jDate + tm)).1) st.lat < -1 ∨
         1 < acosArg T angle ((sun_position T (st.jDate + tm)).1) st.lat) :
    sun_angle_time T st angle (some tm) ccw = none ∧
    (∀ c : ℚ, nadd none c = none) ∧
    (∀ c : ℚ, nsub none c = none) ∧
    (∀ x : Option ℚ, oadd none x = none) ∧
    (∀ x : Option ℚ, time_diff none x = none) ∧
    (∀ (st2 : PTState) (base : Option ℚ) (angle2 : ℚ) (night : Option ℚ)
        (ccw2 : Bool),
      adjust_high_lat_time st2 none base angle2 night ccw2 =
        oadd base
          (if ccw2 then (night_portion st2 angle2 night).map (fun x => -x)
           else night_portion st2 angle2 night)) ∧
    (∀ fmt : String, get_formatted_time none fmt = .s INVALID_TIME) := by
  refine ⟨?_, fun c => rfl, fun c => rfl, fun x => rfl,
    fun x => by cases x <;> rfl, fun st2 base angle2 night ccw2 => ?_,
    fun fmt => rfl⟩
  · simp only [sun_angle_time, if_pos h]
  · simp [adjust_high_lat_time]

/-- C1 (witness): with an oracle whose sine and cosine are constantly `1`,
the argument is `(-1 - 1)/1 = -2 < -1`, so the solver yields `nan` and the
formatter renders the marker. -/
theorem c1_unreachable_angle_nan_witness :
    sun_angle_time trigOne stZero 0 (some 0) true = none ∧
    get_formatted_time none "24h" = .s INVALID_TIME := by
  have h := c1_unreachable_angle_nan trigOne stZero 0 0 true
    (by constructor; norm_num [acosArg, trigOne, stZero])
  exact ⟨h.1, h.2.2.2.2.2.2 "24h"⟩

/-! ### Claim C9 — the formatter -/

/-- C9: the formatter maps `nan` to `"-----"`; with format `"Float"` it
passes the raw fractional hour through; otherwise it adds half a minute,
wraps into `[0, 24)`, truncates to hours and minutes, and renders 24-hour
`HH:MM` or 12-hour `H:MM` (hour `0` rendered as `12`, am/pm chosen by
`hours < 12`, suffix exactly for format `"12h"`); `13.999999` in 24-hour
format renders as `"14:00"` and `0.0` in 12-hour format as `"12:00am"`. -/
theorem c9_formatter :
    (∀ fmt : String, get_formatted_time none fmt = .s INVALID_TIME) ∧
    (∀ t : ℚ, get_formatted_time (some t) "Float" = .f t) ∧
    (∀ (t : ℚ) (fmt : String), fmt ≠ "Float" → ∀ H M : ℤ,
      H = ⌊fix_hour (t + 0.5 / 60)⌋ →
      M = ⌊(fix_hour (t + 0.5 / 60) - (H : ℚ)) * 60⌋ →
      get_formatted_time (some t) fmt =
        if fmt = "24h" then .s (pad2 H ++ ":" ++ pad2 M)
        else .s (toString ((H + 11) % 12 + 1) ++ ":" ++ pad2 M ++
                 (if fmt = "12h" then (if H < 12 then "am" else "pm")
                  else ""))) ∧
    get_formatted_time (some 13.999999) "24h" = .s "14:00" ∧
    get_formatted_time (some 0) "12h" = .s "12:00am" := by
  have key : ∀ (t : ℚ) (fmt : String), fmt ≠ "Float" → ∀ H M : ℤ,
      H = ⌊fix_hour (t + 0.5 / 60)⌋ →
      M = ⌊(fix_hour (t + 0.5 / 60) - (H : ℚ)) * 60⌋ →
      get_formatted_time (some t) fmt =
        if fmt = "24h" then .s (pad2 H ++ ":" ++ pad2 M)
        else .s (toString ((H + 11) % 12 + 1) ++ ":" ++ pad2 M ++
                 (if fmt = "12h" then (if H < 12 then "am" else "pm")
                  else "")) := by
    intro t fmt hf H M hH hM
    simp only [get_formatted_time, if_neg hf]
    rw [← hH, ← hM]
    by_cases h24 : fmt = "24h" <;> simp [h24]
  refine ⟨fun fmt => rfl, fun t => rfl, key, ?_, ?_⟩
  · have hquot : ⌊((13.999999 : ℚ) + 0.5 / 60) / 24⌋ = 0 := by
      norm_num [Int.floor_eq_iff]
    have hfix : fix_hour ((13.999999 : ℚ) + 0.5 / 60) =
        42024997 / 3000000 := by
      simp only [fix_hour, fix]
      rw [hquot]
      norm_num
    have hH : (14 : ℤ) = ⌊fix_hour ((13.999999 : ℚ) + 0.5 / 60)⌋ := by
      rw [hfix]; norm_num [Int.floor_eq_iff]
    have hM : (0 : ℤ) =
        ⌊(fix_hour ((13.999999 : ℚ) + 0.5 / 60) - ((14 : ℤ) : ℚ)) * 60⌋ := by
      rw [hfix]; norm_num [Int.floor_eq_iff]
    rw [key 13.999999 "24h" (by decide) 14 0 hH hM]
    decide
  · have hquot : ⌊((0 : ℚ) + 0.5 / 60) / 24⌋ = 0 := by
      norm_num [Int.floor_eq_iff]
    have hfix : fix_hour ((0 : ℚ) + 0.5 / 60) = 1 / 120 := by
      simp only [fix_hour, fix]
      rw [hquot]
      norm_num
    have hH : (0 : ℤ) = ⌊fix_hour ((0 : ℚ) + 0.5 / 60)⌋ := by
      rw [hfix]; norm_num [Int.floor_eq_iff]
    have hM : (0 : ℤ) =
        ⌊(fix_hour ((0 : ℚ) + 0.5 / 60) - ((0 : ℤ) : ℚ)) * 60⌋ := by
      rw [hfix]; norm_num [Int.floor_eq_iff]
    rw [key 0 "12h" (by decide) 0 0 hH hM]
    decide

/-- C9 (witness): the clause with hypotheses applied at `t = 6`, format
`"24h"`: `6:00` plus half a minute truncates back to hour `6`. -/
theorem c9_formatter_witness :
    get_formatted_time (some 6) "24h" = .s "06:00" := by
  have hquot : ⌊((6 : ℚ) + 0.5 / 60) / 24⌋ = 0 := by
    norm_num [Int.floor_eq_iff]
  have hfix : fix_hour ((6 : ℚ) + 0.5 / 60) = 721 / 120 := by
    simp only [fix_hour, fix]
    rw [hquot]
    norm_num
  have hH : (6 : ℤ) = ⌊fix_hour ((6 : ℚ) + 0.5 / 60)⌋ := by
    rw [hfix]; norm_num [Int.floor_eq_iff]
  have hM : (0 : ℤ) =
      ⌊(fix_hour ((6 : ℚ) + 0.5 / 60) - ((6 : ℤ) : ℚ)) * 60⌋ := by
    rw [hfix]; norm_num [Int.floor_eq_iff]
  rw [c9_formatter.2.2.1 6 "24h" (by decide) 6 0 hH hM]
  decide

/-! ### Table lemmas -/

theorem tget_tset_self (l : TTable) (k : TName) (v : Option ℚ) :
    tget (tset l k v) k = v := by
  induction l with
  | nil => simp [tget, tset, dictSet, dictFind]
  | cons p rest ih =>
      by_cases h : p.1 = k
      · simp [tget, tset, dictSet, dictFind, h]
      · simpa [tget, tset, dictSet, dictFind, h] using ih

theorem tget_tset_ne (l : TTable) (k k' : TName) (v : Option ℚ)
    (h : k ≠ k') : tget (tset l k v) k' = tget l k' := by
  induction l with
  | nil => simp [tget, tset, dictSet, dictFind, h]
  | cons p rest ih =>
      by_cases hp : p.1 = k
      · simp [tget, tset, dictSet, dictFind, hp, h]
      · by_cases hp' : p.1 = k'
        · simp [tget, tset, dictSet, dictFind, hp, hp', Ne.symm h]
        · simpa [tget, tset, dictSet, dictFind, hp, hp'] using ih

/-- `fix a m` lands in `[0, m)` for a positive modulus. -/
theorem fix_mem_Ico (a m : ℚ) (hm : 0 < m) : 0 ≤ fix a m ∧ fix a m < m := by
  have hb : a - m * ⌊a / m⌋ = m * Int.fract (a / m) := by
    rw [Int.fract]
    field_simp
  have h0 : 0 ≤ a - m * ⌊a / m⌋ := by
    rw [hb]
    exact mul_nonneg hm.le (Int.fract_nonneg _)
  have h1 : a - m * ⌊a / m⌋ < m := by
    rw [hb]
    calc m * Int.fract (a / m) < m * 1 :=
          (mul_lt_mul_left hm).mpr (Int.fract_lt_one _)
    _ = m := mul_one m
  simp only [fix]
  rw [if_neg (not_lt.mpr h0)]
  exact ⟨h0, h1⟩

/-! ### Claim C8 — the midnight formula -/

/-- C8: for every computed table, if the midnight setting is `"Jafari"`
the Midnight entry is `Sunset + timeDiff(Sunset, Fajr)/2`, otherwise
`Sunset + timeDiff(Sunset, Sunrise)/2`, with
`timeDiff(a, b) = fixHour(b - a)` the wrap-around positive hour
difference; and `compute_times` produces its result by applying exactly
this midnight step to the adjusted table before tuning and formatting. -/
theorem c8_midnight_formula (T : Trig) (st : PTState) (times : TTable) :
    (sget st "midnight" = .str "Jafari" →
      tget (add_midnight st times) .midnight =
        oadd (tget times .sunset)
          ((time_diff (tget times .sunset) (tget times .fajr)).map
            (· / 2))) ∧
    (sget st "midnight" ≠ .str "Jafari" →
      tget (add_midnight st times) .midnight =
        oadd (tget times .sunset)
          ((time_diff (tget times .sunset) (tget times .sunrise)).map
            (· / 2))) ∧
    (∀ a b : ℚ, time_diff (some a) (some b) = some (fix_hour (b - a))) ∧
    compute_times T st =
      (iterateCPT T st numIterations seedTimes >>= adjust_times st).map
        (fun r => modify_formats st (tune_times st (add_midnight st r))) := by
  refine ⟨?_, ?_, fun a b => rfl, ?_⟩
  · intro h
    rw [add_midnight, if_pos h, tget_tset_self]
  · intro h
    rw [add_midnight, if_neg h, tget_tset_self]
  · cases hit : iterateCPT T st numIterations seedTimes with
    | none => simp [compute_times, hit]
    | some u =>
        cases ha : adjust_times st u with
        | none => simp [compute_times, hit, ha]
        | some r => simp [compute_times, hit, ha]

/-- C8 (witness): with the `"Jafari"` midnight setting and the seed table,
the Midnight entry equals Sunset plus half the Sunset-to-Fajr wrap-around
difference. -/
theorem c8_midnight_formula_witness :
    tget
      (add_midnight
        { stZero with settings := [("midnight", PVal.str "Jafari")] }
        seedTimes) .midnight =
      oadd (tget seedTimes .sunset)
        ((time_diff (tget seedTimes .sunset) (tget seedTimes .fajr)).map
          (· / 2)) :=
  (c8_midnight_formula trigZero
    { stZero with settings := [("midnight", PVal.str "Jafari")] }
    seedTimes).1 (by decide)

/-! ### Claim C6 — minute-offset substitutions in `adjust_times` -/

/-- C6: in every settings table, each parameter expressed as a minute
offset (`"N min"`) triggers its own substitution in `adjust_times`,
computed after the timezone shift and the optional high-latitude
adjustment produced the table `h` and using its resulting values:
if the imsak parameter is a minute offset, `Imsak = Fajr − N/60`;
if the maghrib parameter is a minute offset, `Maghrib = Sunset − N/60`;
if the isha parameter is a minute offset, `Isha = Maghrib − N/60`,
chained off the resulting (possibly minute-derived) Maghrib; and
`N/60` is added to Dhuhr unconditionally, with no minute-offset test on
the dhuhr parameter. -/
theorem c6_minute_offset_adjustments (st : PTState) (times0 h r : TTable)
    (hH : (if sget st "highLats" ≠ .str "None" then
             adjust_high_lats st (tz_shift st times0)
           else some (tz_shift st times0)) = some h)
    (hr : adjust_times st times0 = some r) :
    (∀ nI : ℚ, is_min (sget st "imsak") = true →
      eval (sget st "imsak") = some nI →
      tget r .imsak = nsub (tget h .fajr) (nI / 60)) ∧
    (∀ nM : ℚ, is_min (sget st "maghrib") = true →
      eval (sget st "maghrib") = some nM →
      tget r .maghrib = nsub (tget h .sunset) (nM / 60)) ∧
    (∀ nS : ℚ, is_min (sget st "isha") = true →
      eval (sget st "isha") = some nS →
      tget r .isha = nsub (tget r .maghrib) (nS / 60)) ∧
    (∀ nD : ℚ, eval (sget st "dhuhr") = some nD →
      tget r .dhuhr = nadd (tget h .dhuhr) (nD / 60)) := by
  rw [adjust_times] at hr
  rw [hH] at hr
  simp only [Option.some_bind] at hr
  obtain ⟨u2, hu2, hr⟩ := Option.bind_eq_some.mp hr
  obtain ⟨u3, hu3, hr⟩ := Option.bind_eq_some.mp hr
  obtain ⟨u4, hu4, hr⟩ := Option.bind_eq_some.mp hr
  obtain ⟨nD0, hD0, hrr⟩ := Option.map_eq_some'.mp hr
  subst hrr
  have h2imsak : ∀ nI : ℚ, is_min (sget st "imsak") = true →
      eval (sget st "imsak") = some nI →
      tget u2 .imsak = nsub (tget h .fajr) (nI / 60) := by
    intro nI hmin hev
    rw [if_pos hmin, hev, Option.map_some'] at hu2
    obtain rfl := Option.some_inj.mp hu2
    rw [tget_tset_self]
  have h2other : ∀ k, k ≠ TName.imsak → tget u2 k = tget h k := by
    intro k hk
    by_cases hmin : is_min (sget st "imsak") = true
    · rw [if_pos hmin] at hu2
      obtain ⟨n, -, hnn⟩ := Option.map_eq_some'.mp hu2
      subst hnn
      exact tget_tset_ne _ _ _ _ (Ne.symm hk)
    · rw [if_neg hmin] at hu2
      obtain rfl := Option.some_inj.mp hu2
      rfl
  have h3maghrib : ∀ nM : ℚ, is_min (sget st "maghrib") = true →
      eval (sget st "maghrib") = some nM →
      tget u3 .maghrib = nsub (tget h .sunset) (nM / 60) := by
    intro nM hmin hev
    rw [if_pos hmin, hev, Option.map_some'] at hu3
    obtain rfl := Option.some_inj.mp hu3
    rw [tget_tset_self, h2other TName.sunset (by decide)]
  have h3other : ∀ k, k ≠ TName.maghrib → tget u3 k = tget u2 k := by
    intro k hk
    by_cases hmin : is_min (sget st "maghrib") = true
    · rw [if_pos hmin] at hu3
      obtain ⟨n, -, hnn⟩ := Option.map_eq_some'.mp hu3
      subst hnn
      exact tget_tset_ne _ _ _ _ (Ne.symm hk)
    · rw [if_neg hmin] at hu3
      obtain rfl := Option.some_inj.mp hu3
      rfl
  have h4isha : ∀ nS : ℚ, is_min (sget st "isha") = true →
      eval (sget st "isha") = some nS →
      tget u4 .isha = nsub (tget u3 .maghrib) (nS / 60) := by
    intro nS hmin hev
    rw [if_pos hmin, hev, Option.map_some'] at hu4
    obtain rfl := Option.some_inj.mp hu4
    rw [tget_tset_self]
  have h4other : ∀ k, k ≠ TName.isha → tget u4 k = tget u3 k := by
    intro k hk
    by_cases hmin : is_min (sget st "isha") = true
    · rw [if_pos hmin] at hu4
      obtain ⟨n, -, hnn⟩ := Option.map_eq_some'.mp hu4
      subst hnn
      exact tget_tset_ne _ _ _ _ (Ne.symm hk)
    · rw [if_neg hmin] at hu4
      obtain rfl := Option.some_inj.mp hu4
      rfl
  refine ⟨?_, ?_, ?_, ?_⟩
  · intro nI hmin hev
    rw [tget_tset_ne _ _ _ _ (by decide), h4other TName.imsak (by decide),
      h3other TName.imsak (by decide)]
    exact h2imsak nI hmin hev
  · intro nM hmin hev
    rw [tget_tset_ne _ _ _ _ (by decide), h4other TName.maghrib (by decide)]
    exact h3maghrib nM hmin hev
  · intro nS hmin hev
    rw [tget_tset_ne _ _ _ _ (by decide), h4isha nS hmin hev,
      tget_tset_ne _ _ _ _ (by decide), h4other TName.maghrib (by decide)]
  · intro nD hev
    obtain rfl : nD0 = nD := Option.some_inj.mp (hD0.symm.trans hev)
    rw [tget_tset_self, h4other TName.dhuhr (by decide),
      h3other TName.dhuhr (by decide), h2other TName.dhuhr (by decide)]

/-- A settings table whose imsak/maghrib/isha/dhuhr values are the
minute-offset string `"min"` (numeric part empty, so it evaluates to `0`)
and whose `highLats` is `"None"`; used to witness C6. -/
def stMinOnly : PTState :=
  { stZero with settings :=
      [("imsak", PVal.str "min"), ("maghrib", PVal.str "min"),
       ("isha", PVal.str "min"), ("dhuhr", PVal.str "min"),
       ("highLats", PVal.str "None")] }

/-- C6 (witness): all four clauses realized on the seed table. -/
theorem c6_minute_offset_adjustments_witness :
    ∃ r, adjust_times stMinOnly seedTimes = some r ∧
      tget r .imsak =
        nsub (tget (tz_shift stMinOnly seedTimes) .fajr) ((0 : ℚ) / 60) ∧
      tget r .maghrib =
        nsub (tget (tz_shift stMinOnly seedTimes) .sunset) ((0 : ℚ) / 60) ∧
      tget r .isha = nsub (tget r .maghrib) ((0 : ℚ) / 60) ∧
      tget r .dhuhr =
        nadd (tget (tz_shift stMinOnly seedTimes) .dhuhr) ((0 : ℚ) / 60) := by
  refine ⟨_, rfl, ?_⟩
  have h := c6_minute_offset_adjustments stMinOnly seedTimes
    (tz_shift stMinOnly seedTimes) _ rfl rfl
  exact ⟨h.1 0 (by decide) rfl, h.2.1 0 (by decide) rfl,
    h.2.2.1 0 (by decide) rfl, h.2.2.2 0 rfl⟩

/-! ### Claim C7 — the high-latitude adjustment -/

/-- C7: with a non-`"None"` `highLats` policy, the adjustment computes
`night = timeDiff(sunset, sunrise)` (wrap-around, in `[0, 24)` on defined
inputs), a portion of the night per policy (NightMiddle `1/2`, AngleBased
`angle/60`, OneSeventh `1/7`), and bounds Imsak and Fajr backward from
sunrise and Isha and Maghrib forward from sunset: a time that is `nan` or
whose wrap-around distance from its reference exceeds the portion is
replaced by `reference ∓ portion`, and is kept unchanged otherwise. -/
theorem c7_high_lat_adjustment (st : PTState) (angle : ℚ) :
    (∀ a b : ℚ, time_diff (some a) (some b) = some (fix_hour (b - a)) ∧
      0 ≤ fix_hour (b - a) ∧ fix_hour (b - a) < 24) ∧
    (sget st "highLats" = .str "NightMiddle" →
      ∀ n : ℚ, night_portion st angle (some n) = some (1 / 2 * n)) ∧
    (sget st "highLats" = .str "AngleBased" →
      ∀ n : ℚ, night_portion st angle (some n) = some (angle / 60 * n)) ∧
    (sget st "highLats" = .str "OneSeventh" →
      ∀ n : ℚ, night_portion st angle (some n) = some (1 / 7 * n)) ∧
    (∀ (base night : Option ℚ) (ccw : Bool),
      adjust_high_lat_time st none base angle night ccw =
        oadd base
          (if ccw then (night_portion st angle night).map (fun x => -x)
           else night_portion st angle night)) ∧
    (∀ t b p n : ℚ, night_portion st angle (some n) = some p →
      (adjust_high_lat_time st (some t) (some b) angle (some n) true =
        if p < fix_hour (b - t) then some (b - p) else some t) ∧
      (adjust_high_lat_time st (some t) (some b) angle (some n) false =
        if p < fix_hour (t - b) then some (b + p) else some t)) ∧
    (∀ (times r : TTable) (nI nF nS nM : ℚ),
      eval (sget st "imsak") = some nI → eval (sget st "fajr") = some nF →
      eval (sget st "isha") = some nS → eval (sget st "maghrib") = some nM →
      adjust_high_lats st times = some r →
      tget r .imsak =
        adjust_high_lat_time st (tget times .imsak) (tget times .sunrise) nI
          (time_diff (tget times .sunset) (tget times .sunrise)) true ∧
      tget r .fajr =
        adjust_high_lat_time st (tget times .fajr) (tget times .sunrise) nF
          (time_diff (tget times .sunset) (tget times .sunrise)) true ∧
      tget r .isha =
        adjust_high_lat_time st (tget times .isha) (tget times .sunset) nS
          (time_diff (tget times .sunset) (tget times .sunrise)) false ∧
      tget r .maghrib =
        adjust_high_lat_time st (tget times .maghrib) (tget times .sunset) nM
          (time_diff (tget times .sunset) (tget times .sunrise)) false) := by
  refine ⟨?_, ?_, ?_, ?_, ?_, ?_, ?_⟩
  · intro a b
    exact ⟨rfl, (fix_mem_Ico (b - a) 24 (by norm_num)).1,
      (fix_mem_Ico (b - a) 24 (by norm_num)).2⟩
  · intro h n
    simp [night_portion, h]
  · intro h n
    have hnp : night_portion st angle (some n) =
        some (1 / 60 * angle * n) := by
      simp [night_portion, h]
    rw [hnp]
    congr 1
    ring
  · intro h n
    simp [night_portion, h]
  · intro base night ccw
    simp [adjust_high_lat_time]
  · intro t b p n hp
    constructor
    · simp only [adjust_high_lat_time, hp, time_diff, Option.isNone_some,
        Bool.false_or, ogt, decide_eq_true_eq, if_true]
      by_cases hc : p < fix_hour (b - t)
      · simp only [if_pos hc, Option.map_some', oadd]
        rw [sub_eq_add_neg]
      · simp [hc]
    · simp only [adjust_high_lat_time, hp, time_diff, Option.isNone_some,
        Bool.false_or, ogt, decide_eq_true_eq, Bool.if_false_right,
        Bool.if_false_left]
      by_cases hc : p < fix_hour (t - b)
      · simp [hc, oadd]
      · simp [hc]
  · intro times r nI nF nS nM hIe hFe hSe hMe hr
    simp only [adjust_high_lats, hIe, hFe, hSe, hMe, Option.bind_eq_bind,
      Option.some_bind, Option.pure_def, Option.some_inj] at hr
    subst hr
    refine ⟨?_, ?_, ?_, ?_⟩ <;>
      simp [tget_tset_self, tget_tset_ne]

/-- C7 (witness): portion and clamp instances at concrete values — with
the NightMiddle policy and a 10-hour night, the portion is `5`, and a
`nan` time is replaced by `reference − portion`. -/
theorem c7_high_lat_adjustment_witness :
    night_portion stZero 18 (some 10) = some (1 / 2 * 10) ∧
    adjust_high_lat_time stZero none (some 6) 18 (some 10) true =
      oadd (some 6)
        ((night_portion stZero 18 (some 10)).map (fun x => -x)) := by
  have h := c7_high_lat_adjustment stZero 18
  exact ⟨h.2.1 (by decide) 10, h.2.2.2.2.1 (some 6) (some 10) true⟩

/-! ### Claim C10 — the julian conversion -/

/-- The Gregorian leap-year rule (spec side, to define date validity). -/
def isLeap (y : ℤ) : Prop := (y % 4 = 0 ∧ y % 100 ≠ 0) ∨ y % 400 = 0

instance (y : ℤ) : Decidable (isLeap y) := by
  unfold isLeap
  infer_instance

/-- Days in a month of the proleptic Gregorian calendar (spec side). -/
def daysInMonth (y m : ℤ) : ℤ :=
  if m = 2 then (if isLeap y then 29 else 28)
  else if m = 4 ∨ m = 6 ∨ m = 9 ∨ m = 11 then 30 else 31

/-- A valid proleptic Gregorian date (spec side). -/
def ValidDate (y m d : ℤ) : Prop :=
  1 ≤ m ∧ m ≤ 12 ∧ 1 ≤ d ∧ d ≤ daysInMonth y m

instance (y m d : ℤ) : Decidable (ValidDate y m d) := by
  unfold ValidDate
  infer_instance

/-- The integer part of `julian`: `julian y m d = julianI y m d - 1524.5`. -/
def julianI (year month day : ℤ) : ℤ :=
  let yr := if month ≤ 2 then year - 1 else year
  let mo := if month ≤ 2 then month + 12 else month
  let A := yr / 100
  let B := 2 - A + A / 4
  (1461 * (yr + 4716)) / 4 + (306001 * (mo + 1)) / 10000 + day + B

theorem floor_year_term (y : ℤ) :
    ⌊(365.25 : ℚ) * ((y : ℚ) + 4716)⌋ = (1461 * (y + 4716)) / 4 := by
  have h : (365.25 : ℚ) * ((y : ℚ) + 4716) =
      ((1461 * (y + 4716) : ℤ) : ℚ) / ((4 : ℕ) : ℚ) := by
    push_cast
    ring
  rw [h, Rat.floor_intCast_div_natCast]
  norm_num

theorem floor_month_term (m : ℤ) :
    ⌊(30.6001 : ℚ) * ((m : ℚ) + 1)⌋ = (306001 * (m + 1)) / 10000 := by
  have h : (30.6001 : ℚ) * ((m : ℚ) + 1) =
      ((306001 * (m + 1) : ℤ) : ℚ) / ((10000 : ℕ) : ℚ) := by
    push_cast
    ring
  rw [h, Rat.floor_intCast_div_natCast]
  norm_num

theorem floor_div_100 (a : ℤ) : ⌊(a : ℚ) / 100⌋ = a / 100 := by
  have h : (a : ℚ) / 100 = (a : ℚ) / ((100 : ℕ) : ℚ) := by norm_num
  rw [h, Rat.floor_intCast_div_natCast]
  norm_num

theorem floor_div_4 (a : ℤ) : ⌊(a : ℚ) / 4⌋ = a / 4 := by
  have h : (a : ℚ) / 4 = (a : ℚ) / ((4 : ℕ) : ℚ) := by norm_num
  rw [h, Rat.floor_intCast_div_natCast]
  norm_num

theorem julian_eq_int (y m d : ℤ) :
    julian y m d = ((julianI y m d : ℤ) : ℚ) - 1524.5 := by
  by_cases hm : m ≤ 2
  · simp only [julian, julianI, if_pos hm]
    rw [floor_year_term, floor_month_term, floor_div_100, floor_div_4]
    push_cast
    ring
  · simp only [julian, julianI, if_neg hm]
    rw [floor_year_term, floor_month_term, floor_div_100, floor_div_4]
    push_cast
    ring

/-- `(1461 k) / 4 = 365 k + k / 4`. -/
theorem quarter_div (k : ℤ) : (1461 * k) / 4 = 365 * k + k / 4 := by
  have h : 1461 * k = k + 4 * (365 * k) := by ring
  rw [h, Int.add_mul_ediv_left _ _ (by norm_num : (4 : ℤ) ≠ 0)]
  ring

/-- `julianI` is day plus a function of year and month. -/
theorem julianI_day_linear (y m d : ℤ) :
    julianI y m d = julianI y m 0 + d := by
  by_cases hm : m ≤ 2 <;> simp only [julianI, hm, ite_true, ite_false] <;>
    ring

/-- Month boundary: the first day of the next month follows the last day
of the current month. -/
theorem julianI_month_boundary (y m : ℤ) (h1 : 1 ≤ m) (h11 : m ≤ 11) :
    julianI y (m + 1) 1 = julianI y m (daysInMonth y m) + 1 := by
  have e1 := quarter_div (y + 4716)
  have e2 := quarter_div (y - 1 + 4716)
  interval_cases m
  · have hdim : daysInMonth y 1 = 31 := by norm_num [daysInMonth]
    rw [hdim]
    simp only [julianI]
    split_ifs <;> omega
  · by_cases hleap : isLeap y
    · have hdim : daysInMonth y 2 = 29 := by simp [daysInMonth, hleap]
      rw [hdim]
      unfold isLeap at hleap
      simp only [julianI]
      split_ifs <;> omega
    · have hdim : daysInMonth y 2 = 28 := by simp [daysInMonth, hleap]
      rw [hdim]
      unfold isLeap at hleap
      simp only [julianI]
      split_ifs <;> omega
  · have hdim : daysInMonth y 3 = 31 := by norm_num [daysInMonth]
    rw [hdim]
    simp only [julianI]
    split_ifs <;> omega
  · have hdim : daysInMonth y 4 = 30 := by norm_num [daysInMonth]
    rw [hdim]
    simp only [julianI]
    split_ifs <;> omega
  · have hdim : daysInMonth y 5 = 31 := by norm_num [daysInMonth]
    rw [hdim]
    simp only [julianI]
    split_ifs <;> omega
  · have hdim : daysInMonth y 6 = 30 := by norm_num [daysInMonth]
    rw [hdim]
    simp only [julianI]
    split_ifs <;> omega
  · have hdim : daysInMonth y 7 = 31 := by norm_num [daysInMonth]
    rw [hdim]
    simp only [julianI]
    split_ifs <;> omega
  · have hdim : daysInMonth y 8 = 31 := by norm_num [daysInMonth]
    rw [hdim]
    simp only [julianI]
    split_ifs <;> omega
  · have hdim : daysInMonth y 9 = 30 := by norm_num [daysInMonth]
    rw [hdim]
    simp only [julianI]
    split_ifs <;> omega
  · have hdim : daysInMonth y 10 = 31 := by norm_num [daysInMonth]
    rw [hdim]
    simp only [julianI]
    split_ifs <;> omega
  · have hdim : daysInMonth y 11 = 30 := by norm_num [daysInMonth]
    rw [hdim]
    simp only [julianI]
    split_ifs <;> omega

/-- Year boundary: January 1 follows December 31. -/
theorem julianI_year_boundary (y : ℤ) :
    julianI (y + 1) 1 1 = julianI y 12 31 + 1 := by
  simp only [julianI, add_sub_cancel_right]
  split_ifs <;> omega

/-- Every month has between 28 and 31 days. -/
theorem daysInMonth_bounds (y m : ℤ) :
    28 ≤ daysInMonth y m ∧ daysInMonth y m ≤ 31 := by
  unfold daysInMonth
  split_ifs <;> norm_num

/-- Month-start monotonicity within a year. -/
theorem julianI_month_start_mono (y m m' : ℤ) (h1 : 1 ≤ m) (hmm : m ≤ m')
    (h12 : m' ≤ 12) : julianI y m 1 ≤ julianI y m' 1 := by
  have step : ∀ n : ℤ, 1 ≤ n → n ≤ 11 →
      julianI y n 1 + 28 ≤ julianI y (n + 1) 1 := by
    intro n hn1 hn11
    have hb := julianI_month_boundary y n hn1 hn11
    have hl := julianI_day_linear y n (daysInMonth y n)
    have hl1 := julianI_day_linear y n 1
    have hd := (daysInMonth_bounds y n).1
    omega
  have stepP : ∀ n : ℤ, m ≤ n →
      (n ≤ 12 → julianI y m 1 ≤ julianI y n 1) →
      (n + 1 ≤ 12 → julianI y m 1 ≤ julianI y (n + 1) 1) := by
    intro k hk ih hk12
    have h2 := step k (by omega) (by omega)
    have h3 := ih (by omega)
    omega
  exact @Int.le_induction
    (fun n => n ≤ 12 → julianI y m 1 ≤ julianI y n 1) m
    (fun _ => le_refl _) stepP m' hmm h12

/-- Year-start monotonicity. -/
theorem julianI_year_start_mono (y y' : ℤ) (h : y ≤ y') :
    julianI y 1 1 ≤ julianI y' 1 1 := by
  have stepP : ∀ n : ℤ, y ≤ n → julianI y 1 1 ≤ julianI n 1 1 →
      julianI y 1 1 ≤ julianI (n + 1) 1 1 := by
    intro k hk ih
    have hb := julianI_year_boundary k
    have hms := julianI_month_start_mono k 1 12 (by norm_num) (by norm_num)
      (by norm_num)
    have hl := julianI_day_linear k 12 31
    have hl1 := julianI_day_linear k 12 1
    omega
  exact @Int.le_induction (fun n => julianI y 1 1 ≤ julianI n 1 1) y
    (le_refl _) stepP y' h

/-- Any valid date of year `y` lies between January 1 and December 31. -/
theorem julianI_year_bounds (y m d : ℤ) (h : ValidDate y m d) :
    julianI y 1 1 ≤ julianI y m d ∧ julianI y m d ≤ julianI y 12 31 := by
  obtain ⟨hm1, hm12, hd1, hdm⟩ := h
  have hms1 := julianI_month_start_mono y 1 m (by norm_num) hm1 hm12
  have hms2 := julianI_month_start_mono y m 12 hm1 hm12 (by norm_num)
  have hl := julianI_day_linear y m d
  have hl1 := julianI_day_linear y m 1
  have hl12a := julianI_day_linear y 12 31
  have hl12b := julianI_day_linear y 12 1
  have hdb := (daysInMonth_bounds y m).2
  omega

/-- Strict monotonicity of the integer julian number in the lexicographic
order of valid dates. -/
theorem julianI_strictMono (y m d y' m' d' : ℤ)
    (h1 : ValidDate y m d) (h2 : ValidDate y' m' d')
    (hlt : y < y' ∨ (y = y' ∧ (m < m' ∨ (m = m' ∧ d < d')))) :
    julianI y m d < julianI y' m' d' := by
  rcases hlt with hy | ⟨rfl, hm | ⟨rfl, hd⟩⟩
  · have hub := (julianI_year_bounds y m d h1).2
    have hlb := (julianI_year_bounds y' m' d' h2).1
    have hyb := julianI_year_boundary y
    have hys := julianI_year_start_mono (y + 1) y' (by omega)
    omega
  · obtain ⟨hm1, hm12, hd1, hdm⟩ := h1
    obtain ⟨hm1', hm12', hd1', hdm'⟩ := h2
    have hb := julianI_month_boundary y m hm1 (by omega)
    have hms := julianI_month_start_mono y (m + 1) m' (by omega) (by omega)
      hm12'
    have hl := julianI_day_linear y m d
    have hldim := julianI_day_linear y m (daysInMonth y m)
    have hl' := julianI_day_linear y m' d'
    have hl1' := julianI_day_linear y m' 1
    omega
  · have hl := julianI_day_linear y m d
    have hl' := julianI_day_linear y m d'
    omega

/-- C10: `julian` is strictly monotonically increasing in the
lexicographic order of valid proleptic Gregorian dates, and on the
reference date 2000-01-01 it returns the known Julian day `2451544.5`. -/
theorem c10_julian_monotone (y m d y' m' d' : ℤ)
    (h1 : ValidDate y m d) (h2 : ValidDate y' m' d')
    (hlt : y < y' ∨ (y = y' ∧ (m < m' ∨ (m = m' ∧ d < d')))) :
    julian y m d < julian y' m' d' ∧ julian 2000 1 1 = 2451544.5 := by
  constructor
  · rw [julian_eq_int, julian_eq_int]
    have h := julianI_strictMono y m d y' m' d' h1 h2 hlt
    have hc : ((julianI y m d : ℤ) : ℚ) < ((julianI y' m' d' : ℤ) : ℚ) := by
      exact_mod_cast h
    linarith
  · rw [julian_eq_int]
    have hv : julianI 2000 1 1 = 2453069 := by decide
    rw [hv]
    norm_num

/-- C10 (witness): 2000-01-01 precedes 2000-01-02 and maps to the
reference Julian day. -/
theorem c10_julian_monotone_witness :
    julian 2000 1 1 < julian 2000 1 2 ∧ julian 2000 1 1 = 2451544.5 :=
  c10_julian_monotone 2000 1 1 2000 1 2 (by decide) (by decide)
    (by norm_num)

/-! ### Claim C2 — the table keys -/

/-- The eight keys of the working table before the midnight step. -/
def eightNames : List TName :=
  [.imsak, .fajr, .sunrise, .dhuhr, .asr, .sunset, .maghrib, .isha]

/-- The nine prayer names. -/
def nineNames : List TName :=
  [.imsak, .fajr, .sunrise, .dhuhr, .asr, .sunset, .maghrib, .isha, .midnight]

theorem keys_tset_mem (k : TName) (v : Option ℚ) :
    ∀ l : TTable, k ∈ dictKeys l → dictKeys (tset l k v) = dictKeys l
  | [], h => by simp [dictKeys] at h
  | p :: rest, h => by
      by_cases hp : p.1 = k
      · simp [tset, dictSet, dictKeys, hp]
      · have h1 : k = p.1 ∨ k ∈ dictKeys rest := by simpa [dictKeys] using h
        have hmem : k ∈ dictKeys rest :=
          h1.resolve_left (fun he => hp he.symm)
        simpa [tset, dictSet, dictKeys, hp] using
          keys_tset_mem k v rest hmem

theorem keys_tset_not_mem (k : TName) (v : Option ℚ) :
    ∀ l : TTable, k ∉ dictKeys l → dictKeys (tset l k v) = dictKeys l ++ [k]
  | [], _ => by simp [tset, dictSet, dictKeys]
  | p :: rest, h => by
      have h1 : ¬(k = p.1 ∨ k ∈ dictKeys rest) := by simpa [dictKeys] using h
      have hp : p.1 ≠ k := fun he => (not_or.mp h1).1 he.symm
      simpa [tset, dictSet, dictKeys, hp] using
        keys_tset_not_mem k v rest (not_or.mp h1).2

/-- Setting one of the eight working keys keeps the key list intact. -/
theorem keys_tset_eight (l : TTable) (k : TName) (v : Option ℚ)
    (hl : dictKeys l = eightNames) (hk : k ∈ eightNames) :
    dictKeys (tset l k v) = eightNames := by
  rw [keys_tset_mem k v l (by rw [hl]; exact hk), hl]

theorem keys_map_val {α β : Type} (f : TName → α → β)
    (l : List (TName × α)) :
    dictKeys (l.map (fun p => (p.1, f p.1 p.2))) = dictKeys l := by
  induction l with
  | nil => rfl
  | cons p rest ih => simp [dictKeys, ih]

theorem keys_tz_shift (st : PTState) (t : TTable) :
    dictKeys (tz_shift st t) = dictKeys t :=
  keys_map_val (fun _ v => nadd v (st.timeZone - st.lng / 15)) t

theorem keys_compute_prayer_times (T : Trig) (st : PTState) (t r : TTable)
    (hr : compute_prayer_times T st t = some r) : dictKeys r = eightNames := by
  simp only [compute_prayer_times, Option.bind_eq_bind, Option.pure_def]
    at hr
  obtain ⟨aI, -, hr⟩ := Option.bind_eq_some.mp hr
  obtain ⟨aF, -, hr⟩ := Option.bind_eq_some.mp hr
  obtain ⟨fA, -, hr⟩ := Option.bind_eq_some.mp hr
  obtain ⟨aM, -, hr⟩ := Option.bind_eq_some.mp hr
  obtain ⟨aS, -, hr⟩ := Option.bind_eq_some.mp hr
  obtain rfl := (Option.some_inj.mp hr).symm
  rfl

theorem keys_adjust_high_lats (st : PTState) (t r : TTable)
    (ht : dictKeys t = eightNames) (hr : adjust_high_lats st t = some r) :
    dictKeys r = eightNames := by
  simp only [adjust_high_lats, Option.bind_eq_bind, Option.pure_def] at hr
  obtain ⟨aI, -, hr⟩ := Option.bind_eq_some.mp hr
  obtain ⟨aF, -, hr⟩ := Option.bind_eq_some.mp hr
  obtain ⟨aS, -, hr⟩ := Option.bind_eq_some.mp hr
  obtain ⟨aM, -, hr⟩ := Option.bind_eq_some.mp hr
  obtain rfl := (Option.some_inj.mp hr).symm
  exact keys_tset_eight _ _ _
    (keys_tset_eight _ _ _
      (keys_tset_eight _ _ _ (keys_tset_eight _ _ _ ht (by decide))
        (by decide)) (by decide)) (by decide)

theorem keys_adjust_times (st : PTState) (t r : TTable)
    (ht : dictKeys t = eightNames) (hr : adjust_times st t = some r) :
    dictKeys r = eightNames := by
  simp only [adjust_times] at hr
  obtain ⟨u1, hu1, hr⟩ := Option.bind_eq_some.mp hr
  have k1 : dictKeys u1 = eightNames := by
    by_cases hHL : sget st "highLats" ≠ .str "None"
    · rw [if_pos hHL] at hu1
      exact keys_adjust_high_lats st _ u1 (by rw [keys_tz_shift, ht]) hu1
    · rw [if_neg hHL] at hu1
      obtain rfl := (Option.some_inj.mp hu1).symm
      rw [keys_tz_shift, ht]
  obtain ⟨u2, hu2, hr⟩ := Option.bind_eq_some.mp hr
  have k2 : dictKeys u2 = eightNames := by
    by_cases hm : is_min (sget st "imsak") = true
    · rw [if_pos hm] at hu2
      obtain ⟨n, -, hn⟩ := Option.map_eq_some'.mp hu2
      rw [← hn]
      exact keys_tset_eight _ _ _ k1 (by decide)
    · rw [if_neg hm] at hu2
      obtain rfl := (Option.some_inj.mp hu2).symm
      exact k1
  obtain ⟨u3, hu3, hr⟩ := Option.bind_eq_some.mp hr
  have k3 : dictKeys u3 = eightNames := by
    by_cases hm : is_min (sget st "maghrib") = true
    · rw [if_pos hm] at hu3
      obtain ⟨n, -, hn⟩ := Option.map_eq_some'.mp hu3
      rw [← hn]
      exact keys_tset_eight _ _ _ k2 (by decide)
    · rw [if_neg hm] at hu3
      obtain rfl := (Option.some_inj.mp hu3).symm
      exact k2
  obtain ⟨u4, hu4, hr⟩ := Option.bind_eq_some.mp hr
  have k4 : dictKeys u4 = eightNames := by
    by_cases hm : is_min (sget st "isha") = true
    · rw [if_pos hm] at hu4
      obtain ⟨n, -, hn⟩ := Option.map_eq_some'.mp hu4
      rw [← hn]
      exact keys_tset_eight _ _ _ k3 (by decide)
    · rw [if_neg hm] at hu4
      obtain rfl := (Option.some_inj.mp hu4).symm
      exact k3
  obtain ⟨n, -, hn⟩ := Option.map_eq_some'.mp hr
  rw [← hn]
  exact keys_tset_eight _ _ _ k4 (by decide)

theorem keys_add_midnight (st : PTState) (t : TTable)
    (ht : dictKeys t = eightNames) :
    dictKeys (add_midnight st t) = nineNames := by
  have hnm : TName.midnight ∉ dictKeys t := by
    rw [ht]; decide
  rw [add_midnight]
  split <;> rw [keys_tset_not_mem _ _ _ hnm, ht] <;> decide

theorem keys_tune_times (st : PTState) (t : TTable) :
    dictKeys (tune_times st t) = dictKeys t :=
  keys_map_val (fun k v => nadd v (st.offset k / 60)) t

theorem keys_modify_formats (st : PTState) (t : TTable) :
    dictKeys (modify_formats st t) = dictKeys t := by
  induction t with
  | nil => rfl
  | cons p rest ih => simp [modify_formats, dictKeys, ih]

/-- C2 (counterexample): the claim says the table keys are exactly the
nine prayer names at every stage of the computation, but the seed table
of `compute_times` — and every table up to the midnight step — has only
eight keys: `midnight` is absent. -/
theorem c2_nine_keys_counterexample :
    dictKeys seedTimes ≠ nineNames ∧
    TName.midnight ∉ dictKeys seedTimes := by
  decide

/-- C2 (amended): through the refinement and adjustment stages the table
has exactly the eight non-midnight keys, in order; the midnight step
extends them to the nine prayer names; tuning and formatting preserve
them; hence every table returned by `get_times` has exactly the nine
prayer names as keys, and each entry that is undefined (`nan`) before
formatting is rendered as the `"-----"` marker. -/
theorem c2_table_keys :
    dictKeys seedTimes = eightNames ∧
    (∀ (T : Trig) (st : PTState) (t r : TTable),
      compute_prayer_times T st t = some r → dictKeys r = eightNames) ∧
    (∀ (st : PTState) (t r : TTable), dictKeys t = eightNames →
      adjust_times st t = some r → dictKeys r = eightNames) ∧
    (∀ (st : PTState) (t : TTable), dictKeys t = eightNames →
      dictKeys (add_midnight st t) = nineNames) ∧
    (∀ (st : PTState) (t : TTable),
      dictKeys (tune_times st t) = dictKeys t ∧
      dictKeys (modify_formats st t) = dictKeys t) ∧
    (∀ (T : Trig) (settings : List (String × PVal)) (offset : TName → ℚ)
        (date : ℤ × ℤ × ℤ) (coords : ℚ × ℚ × ℚ) (timezone : ℚ) (dst : Bool)
        (fmt : String) (r : FTable),
      get_times T settings offset date coords timezone dst fmt = some r →
      dictKeys r = nineNames) ∧
    (∀ (st : PTState) (t : TTable) (k : TName), (k, (none : Option ℚ)) ∈ t →
      (k, FmtVal.s INVALID_TIME) ∈ modify_formats st t) := by
  refine ⟨by decide, keys_compute_prayer_times, keys_adjust_times,
    keys_add_midnight, fun st t => ⟨keys_tune_times st t,
      keys_modify_formats st t⟩, ?_, ?_⟩
  · intro T settings offset date coords timezone dst fmt r hr
    simp only [get_times, compute_times, numIterations, iterateCPT,
      Option.bind_eq_bind, Option.pure_def] at hr
    obtain ⟨u0, hu0, hr⟩ := Option.bind_eq_some.mp hr
    obtain ⟨u1, hu1, h10⟩ := Option.bind_eq_some.mp hu0
    obtain rfl := Option.some_inj.mp h10
    obtain ⟨u2, hu2, hr⟩ := Option.bind_eq_some.mp hr
    obtain rfl := (Option.some_inj.mp hr).symm
    rw [keys_modify_formats, keys_tune_times]
    exact keys_add_midnight _ _
      (keys_adjust_times _ _ _ (keys_compute_prayer_times _ _ _ _ hu1) hu2)
  · intro st t k hk
    have : (k, FmtVal.s INVALID_TIME) =
        (fun p : TName × Option ℚ =>
          (p.1, get_formatted_time p.2 st.timeFormat)) (k, none) := rfl
    rw [modify_formats, this]
    exact List.mem_map_of_mem _ hk

/-- C2 (witness): the key sets at concrete stages — the seed table has the
eight keys, the midnight step extends the seed to nine, a concrete
`adjust_times` run keeps eight, and a `nan` entry formats to the
marker. -/
theorem c2_table_keys_witness :
    dictKeys (add_midnight stZero seedTimes) = nineNames ∧
    (∃ r, adjust_times stMinOnly seedTimes = some r ∧
      dictKeys r = eightNames) ∧
    (TName.imsak, FmtVal.s INVALID_TIME) ∈
      modify_formats stZero [(TName.imsak, none)] := by
  refine ⟨c2_table_keys.2.2.2.1 stZero seedTimes (by decide),
    ⟨_, rfl, c2_table_keys.2.2.1 stMinOnly seedTimes _ (by decide) rfl⟩,
    c2_table_keys.2.2.2.2.2.2 stZero [(TName.imsak, none)] TName.imsak
      (by decide)⟩

/-! ### Claim C3 — `eval` on malformed numeric strings -/

/-- C3 (counterexample): the claim says a malformed numeric settings value
whose leading characters are sign or dot symbols not forming a number is
parsed to `0` without raising, and `get_times` still returns a full table.
On the value `"."` the source's `eval` reaches `float(".")`, which raises
`ValueError` (modelled `none`), and a `get_times` call with
`imsak = "."` propagates the exception instead of returning a table. -/
theorem c3_eval_raises_counterexample :
    eval (.str ".") = none ∧
    get_times trigZero [("imsak", .str ".")] (fun _ => 0) (2024, 1, 1)
      (0, 0, 0) 0 false "24h" = none := by
  exact ⟨rfl, rfl⟩

/-- C3 (amended): `eval` returns `0` exactly when the maximal leading run
of `[0-9.+-]` characters is empty; when that run is nonempty it is handed
to `float`, which raises `ValueError` (modelled `none`) if the run is not
a well-formed float literal. -/
theorem c3_eval_empty_prefix_zero :
    (∀ s : String, evalPrefix s = "" → eval (.str s) = some 0) ∧
    (∀ s : String, evalPrefix s ≠ "" →
      eval (.str s) = pyFloat (evalPrefix s)) := by
  constructor
  · intro s h
    simp [eval, h]
  · intro s h
    simp [eval, h]

/-- C3 (witness): the named-rule value `"Standard"` has an empty numeric
prefix and parses to `0`. -/
theorem c3_eval_empty_prefix_zero_witness :
    eval (.str "Standard") = some 0 :=
  c3_eval_empty_prefix_zero.1 "Standard" (by decide)

/-! ### Claim C4 — unknown method ids -/

/-- C4 (counterexample): the claim says selecting an unknown id via
`set_method` results in the MWL method being in force.  In the source,
`set_method` with an unknown id is a no-op: after constructing with
`"Tehran"` and then calling `set_method("Bogus")`, the method in force is
still `"Tehran"`, not `"MWL"`. -/
theorem c4_set_method_counterexample :
    (set_method (PrayTimes_init initialClassState "Tehran").1
        (PrayTimes_init initialClassState "Tehran").2 "Bogus").2.CALC_METHOD
      = "Tehran" ∧ "Tehran" ≠ "MWL" := by
  constructor
  · rfl
  · decide

/-- C4 (amended): constructing `PrayTimes` with an id absent from the
method registry falls back to `"MWL"`, while `set_method` with an unknown
id changes nothing (neither the shared settings nor the instance's
method), leaving whatever method was previously in force. -/
theorem c4_unknown_method_fallback :
    (∀ (cs : ClassState) (m : String), dictFind cs.METHODS m = none →
      (PrayTimes_init cs m).2.CALC_METHOD = "MWL") ∧
    (∀ (cs : ClassState) (inst : PTInstance) (m : String),
      dictFind cs.METHODS m = none → set_method cs inst m = (cs, inst)) := by
  constructor
  · intro cs m h
    have h2 := dictFind_map_val_none fillDefaults cs.METHODS m h
    simp [PrayTimes_init, h2]
  · intro cs inst m h
    simp [set_method, h]

/-- C4 (witness): with the initial class state and the unknown id
`"Bogus"`, the constructor falls back to `"MWL"` and `set_method` is a
no-op. -/
theorem c4_unknown_method_fallback_witness :
    (PrayTimes_init initialClassState "Bogus").2.CALC_METHOD = "MWL" ∧
    set_method initialClassState { CALC_METHOD := "MWL" } "Bogus"
      = (initialClassState, { CALC_METHOD := "MWL" }) :=
  ⟨c4_unknown_method_fallback.1 initialClassState "Bogus" (by decide),
   c4_unknown_method_fallback.2 initialClassState { CALC_METHOD := "MWL" }
     "Bogus" (by decide)⟩

/-! ### Claim C5 — class-level shared settings and offsets -/

/-- C5: `SETTINGS` and `offset` are class-level dicts mutated in place, so
they are shared by every instance: after `PrayTimes("Tehran")` followed by
`PrayTimes("ISNA")`, the first instance's `get_settings` reports the ISNA
fajr angle `15` (while its own `CALC_METHOD` still reads `"Tehran"`);
`adjust` and `tune` on the shared state are likewise observed through
every other instance, and `get_settings`/`get_offsets` return the same
dict for all instances. -/
theorem c5_shared_settings_and_offsets :
    dictFind
      (get_settings
        (PrayTimes_init (PrayTimes_init initialClassState "Tehran").1
          "ISNA").1
        (PrayTimes_init initialClassState "Tehran").2) "fajr"
      = some (.num 15) ∧
    get_method
      (PrayTimes_init (PrayTimes_init initialClassState "Tehran").1 "ISNA").1
      (PrayTimes_init initialClassState "Tehran").2 = "Tehran" ∧
    (∀ (cs : ClassState) (params : List (String × PVal))
        (i j : PTInstance),
      get_settings (adjust cs params) i = get_settings (adjust cs params) j ∧
      get_settings (adjust cs params) i = dictUpdate cs.SETTINGS params) ∧
    (∀ (cs : ClassState) (offsets : List (String × ℚ)) (i j : PTInstance),
      get_offsets (tune cs offsets) i = get_offsets (tune cs offsets) j ∧
      get_offsets (tune cs offsets) i = dictUpdate cs.offset offsets) := by
  refine ⟨?_, rfl, fun cs params i j => ⟨rfl, rfl⟩,
    fun cs offsets i j => ⟨rfl, rfl⟩⟩
  rfl

end RTimes
